import Mathlib

/-!
Verification of the go-sse-wsgi-sidecar relay: a Go sidecar that bridges
Redis pub/sub to Server-Sent-Event HTTP streams.  The repository contains two
variants of the program:

* `main.go` — per-connection topology: every authenticated connection opens a
  dedicated Redis subscription on a channel derived from the verified user id
  (`subscribeToUserChannel`), and the handler writes 401 on auth failure;
* a shared-topology variant (the second source file) — one global Redis
  subscription on channel "events", fan-out through a `clientManager`
  goroutine owning the `clients` map, driven by the `addClient`,
  `removeClient` and `broadcast` channels.

The embedding below models both variants.  Machine integers (the `int64`
user id, unix-second timestamps) are modelled as `Int`; no arithmetic is
performed on them by the program, so no overflow modelling is needed.
Go channels of capacity 10 are modelled as bounded FIFO lists; `close` of a
channel and send-on-closed-channel panics are modelled as `Except` errors.
-/

namespace SSE

/-! ## Environment and startup (`getRedisClient`, `main`)

Go's `os.Getenv` returns the empty string for an unset variable, so each
environment variable is modelled as a `String` with `""` meaning absent. -/

structure Env where
  redisURL : String
  tokenSecret : String
  port : String
deriving DecidableEq, Repr

inductive StartupResult
  | fatal (msg : String)
  | serving (port : String)
deriving DecidableEq, Repr

/-- `getRedisClient`: `log.Fatal` when `GO_SSE_SIDECAR_REDIS_URL` is unset,
`log.Fatalf` when `redis.ParseURL` fails (`parseOk` models the latter). -/
def getRedisClient (redisURL : String) (parseOk : Bool) : Except String Unit :=
  if redisURL = "" then Except.error "GO_SSE_SIDECAR_REDIS_URL not set"
  else if parseOk then Except.ok () else Except.error "Failed to parse Redis URL"

/-- `main`: build the Redis client (fatal on missing URL / bad parse), ping it
(fatal on error), then serve on the configured port, defaulting to 5687.
Note: `main` never reads `GO_SSE_SIDECAR_TOKEN`; the secret is only read
per-request inside `sseHandler`. -/
def mainStartup (e : Env) (parseOk pingOk : Bool) : StartupResult :=
  match getRedisClient e.redisURL parseOk with
  | Except.error m => StartupResult.fatal m
  | Except.ok _ =>
    if pingOk then
      StartupResult.serving (if e.port = "" then "5687" else e.port)
    else StartupResult.fatal "Redis error"

/-! ## Token verification (`SSETokenClaims`, `verifySseToken`)

A token string is modelled as `Option JWTToken`: `none` is a string that is
not a well-formed JWT; `some t` records the signing algorithm declared in the
header, the embedded `user_id` claim, the optional `exp` registered claim
(unix seconds) and the secret the HMAC signature was produced with. -/

inductive Alg
  | HS256 | HS384 | HS512 | RS256 | ES256 | EdDSA
deriving DecidableEq, Repr

/-- The `*jwt.SigningMethodHMAC` family of golang-jwt. -/
def Alg.isHMAC : Alg → Bool
  | Alg.HS256 => true
  | Alg.HS384 => true
  | Alg.HS512 => true
  | _ => false

structure JWTToken where
  alg : Alg
  userID : Int
  exp : Option Int
  signedWith : String
deriving DecidableEq, Repr

/-- The claims struct of the source: the custom `user_id` claim plus the
registered claims (of which only `ExpiresAt` matters here). -/
structure SSETokenClaims where
  userID : Int
  expiresAt : Option Int
deriving DecidableEq, Repr

/-- The keyfunc closure passed by `verifySseToken` to `jwt.ParseWithClaims`:
reject any signing method that is not HMAC, otherwise hand back the secret. -/
def sseKeyfunc (secret : String) (t : JWTToken) : Except String String :=
  if t.alg.isHMAC then Except.ok secret
  else Except.error "unexpected signing method"

/-- Modelled behaviour of `jwt.ParseWithClaims` from golang-jwt/jwt/v5 (a
library dependency): a malformed string fails to parse; otherwise the keyfunc
is consulted, the HMAC signature is checked against the returned key (valid
iff the token was signed with that exact secret), and the registered claims
are validated — an `exp` claim, when present, must be strictly in the
future (`now`, like `exp`, in unix seconds). -/
def jwt_parseWithClaims (tok : Option JWTToken) (now : Int)
    (keyfunc : JWTToken → Except String String) : Except String SSETokenClaims :=
  match tok with
  | none => Except.error "token is malformed"
  | some t =>
    match keyfunc t with
    | Except.error e => Except.error e
    | Except.ok key =>
      if t.signedWith = key then
        match t.exp with
        | some ex =>
          if ex ≤ now then Except.error "token has invalid claims: token is expired"
          else Except.ok (SSETokenClaims.mk t.userID (some ex))
        | none => Except.ok (SSETokenClaims.mk t.userID none)
      else Except.error "signature is invalid"

/-- `verifySseToken`: parse with the HMAC-only keyfunc; every parse failure is
normalized to a single error (`"token parse error: ..."`); on success the
parsed claims are returned. -/
def verifySseToken (tok : Option JWTToken) (secret : String) (now : Int) :
    Except String SSETokenClaims :=
  match jwt_parseWithClaims tok now (sseKeyfunc secret) with
  | Except.error e => Except.error ("token parse error: " ++ e)
  | Except.ok claims => Except.ok claims

/-! ## Claims C3 and C4: the verifier -/

/-- C3: a well-formed token signed with a different secret, or declaring a
non-HMAC algorithm, or whose expiry is in the past, is rejected by
`verifySseToken`: it returns an error and never a claims value. -/
theorem C3_invalid_token_rejected (t : JWTToken) (secret : String) (now : Int)
    (h : t.signedWith ≠ secret ∨ t.alg.isHMAC = false ∨
         (∃ ex, t.exp = some ex ∧ ex < now)) :
    (∃ msg, verifySseToken (some t) secret now = Except.error msg) ∧
    (∀ c, verifySseToken (some t) secret now ≠ Except.ok c) := by
  unfold verifySseToken jwt_parseWithClaims sseKeyfunc
  rcases h with h | h | ⟨ex, hex, hlt⟩
  · cases hA : t.alg.isHMAC <;> simp [hA, h]
  · simp [h]
  · cases hA : t.alg.isHMAC
    · simp [hA]
    · by_cases hs : t.signedWith = secret <;>
        simp [hA, hs, hex, le_of_lt hlt]

/-- Witness for C3 at a concrete expired token. -/
theorem C3_invalid_token_rejected_witness :
    (∃ msg, verifySseToken (some (JWTToken.mk Alg.HS256 42 (some 50) "s")) "s" 100 =
      Except.error msg) ∧
    (∀ c, verifySseToken (some (JWTToken.mk Alg.HS256 42 (some 50) "s")) "s" 100 ≠
      Except.ok c) :=
  C3_invalid_token_rejected (JWTToken.mk Alg.HS256 42 (some 50) "s") "s" 100
    (Or.inr (Or.inr ⟨50, rfl, by decide⟩))

/-- C4: a well-formed token HMAC-signed with the configured secret whose
expiry is in the future verifies successfully, and the returned `user_id`
claim is the subject identifier embedded in the token, unchanged. -/
theorem C4_valid_token_accepted (t : JWTToken) (secret : String) (now ex : Int)
    (h1 : t.alg.isHMAC = true) (h2 : t.signedWith = secret)
    (h3 : t.exp = some ex) (h4 : now < ex) :
    verifySseToken (some t) secret now =
      Except.ok (SSETokenClaims.mk t.userID (some ex)) := by
  unfold verifySseToken jwt_parseWithClaims sseKeyfunc
  simp [h1, h2, h3, not_le.mpr h4]

/-- Witness for C4 at a concrete valid token. -/
theorem C4_valid_token_accepted_witness :
    verifySseToken (some (JWTToken.mk Alg.HS256 42 (some 200) "s")) "s" 100 =
      Except.ok (SSETokenClaims.mk 42 (some 200)) :=
  C4_valid_token_accepted (JWTToken.mk Alg.HS256 42 (some 200) "s") "s" 100 200
    rfl rfl rfl (by decide)

/-! ## Per-user channel naming (`subscribeToUserChannel`)

`fmt.Sprintf("events:user:%d", userID)`: the `%d` verb renders an `int64` in
decimal, with a leading minus sign for negative values.  The rendering is
embedded below via `Nat.digits`. -/

/-- The character for one decimal digit (`0 ≤ d < 10` in use). -/
def digitChar (d : Nat) : Char := Char.ofNat (48 + d)

/-- Decimal rendering of a natural number, most significant digit first;
`%d` prints `0` as `"0"`. -/
def decRender (n : Nat) : String :=
  if n = 0 then "0" else String.mk ((Nat.digits 10 n).reverse.map digitChar)

/-- `%d` rendering of an `int64`: minus sign then the magnitude. -/
def intRender (i : Int) : String :=
  if i < 0 then "-" ++ decRender i.natAbs else decRender i.toNat

/-- The Redis channel `subscribeToUserChannel` subscribes for a user:
`fmt.Sprintf("events:user:%d", userID)`. -/
def channelName (userID : Int) : String := "events:user:" ++ intRender userID

/-- Redis pub/sub delivery: a subscriber created by `subscribeToUserChannel`
for identity `userID` receives a published message iff the publish channel
equals its subscribed channel (exact-name subscription, no patterns). -/
def receives (userID : Int) (publishChannel : String) : Bool :=
  publishChannel == channelName userID

/-! ## The HTTP handlers (`sseHandler`, both variants)

The response is summarised by the status code finally written (Go writes an
implicit 200 when the handler returns without calling `WriteHeader` or
`http.Error`), whether a per-user Redis subscription goroutine was started
(per-connection variant) and on which channel, whether the connection was
registered with the `clientManager` (shared variant), and whether the
`make(chan string, 10)` outbound queue was allocated. -/

structure HandlerResponse where
  status : Nat
  subscribed : Bool
  busChannel : Option String
  registered : Bool
  queueAllocated : Bool
deriving DecidableEq, Repr

/-- `sseHandler` of the per-connection variant (`main.go`): CORS headers,
read `ssetoken` from the query and the secret from the environment, verify;
on failure `http.Error(w, "Unauthorized", http.StatusUnauthorized)` and
return; on success check the flusher (500 if unsupported), allocate the
capacity-10 queue, start `subscribeToUserChannel` for the verified user id,
and stream. -/
def sseHandler_main (tok : Option JWTToken) (e : Env) (now : Int)
    (flusherOk : Bool) : HandlerResponse :=
  match verifySseToken tok e.tokenSecret now with
  | Except.error _ => HandlerResponse.mk 401 false none false false
  | Except.ok claims =>
    if flusherOk then
      HandlerResponse.mk 200 true (some (channelName claims.userID)) false true
    else HandlerResponse.mk 500 false none false false

/-- `sseHandler` of the shared-topology variant: on verification failure it
only prints the error and returns — no `http.Error` call, so the response
carries Go's implicit 200 status with an empty body; on success it checks the
flusher, allocates the capacity-10 queue and registers with the
`clientManager` via `addClient`. -/
def sseHandler_shared (tok : Option JWTToken) (e : Env) (now : Int)
    (flusherOk : Bool) : HandlerResponse :=
  match verifySseToken tok e.tokenSecret now with
  | Except.error _ => HandlerResponse.mk 200 false none false false
  | Except.ok _ =>
    if flusherOk then HandlerResponse.mk 200 false none true true
    else HandlerResponse.mk 500 false none false false

/-! ## Claim C1: rejected requests -/

/-- C1 counterexample: the claim says every request with a failing `ssetoken`
is answered with HTTP 401.  In the shared-topology variant the handler
returns without writing an error status, so the client sees the implicit
200, not 401, for an expired token. -/
theorem C1_counterexample_shared_no_401 :
    (sseHandler_shared (some (JWTToken.mk Alg.HS256 42 (some 50) "s"))
        (Env.mk "redis://localhost:6379/0" "s" "") 100 true).status = 200 ∧
    (sseHandler_shared (some (JWTToken.mk Alg.HS256 42 (some 50) "s"))
        (Env.mk "redis://localhost:6379/0" "s" "") 100 true).status ≠ 401 := by
  constructor <;> decide

/-- C1 amended: on any request whose `ssetoken` fails verification, neither
variant creates a bus subscription, registers the connection, or allocates
the outbound queue; the per-connection variant responds 401, while the
shared variant returns without writing an error status (implicit 200). -/
theorem C1_reject_allocates_nothing (tok : Option JWTToken) (e : Env)
    (now : Int) (flusherOk : Bool) (msg : String)
    (h : verifySseToken tok e.tokenSecret now = Except.error msg) :
    (sseHandler_main tok e now flusherOk).status = 401 ∧
    (sseHandler_main tok e now flusherOk).subscribed = false ∧
    (sseHandler_main tok e now flusherOk).queueAllocated = false ∧
    (sseHandler_shared tok e now flusherOk).status = 200 ∧
    (sseHandler_shared tok e now flusherOk).registered = false ∧
    (sseHandler_shared tok e now flusherOk).queueAllocated = false := by
  unfold sseHandler_main sseHandler_shared
  rw [h]
  exact ⟨rfl, rfl, rfl, rfl, rfl, rfl⟩

/-- Witness for C1 (amended) at a concrete request with a missing token. -/
theorem C1_reject_allocates_nothing_witness :
    (sseHandler_main none (Env.mk "redis://localhost:6379/0" "s" "") 100 true).status
      = 401 ∧
    (sseHandler_main none (Env.mk "redis://localhost:6379/0" "s" "") 100 true).subscribed
      = false ∧
    (sseHandler_main none (Env.mk "redis://localhost:6379/0" "s" "") 100 true).queueAllocated
      = false ∧
    (sseHandler_shared none (Env.mk "redis://localhost:6379/0" "s" "") 100 true).status
      = 200 ∧
    (sseHandler_shared none (Env.mk "redis://localhost:6379/0" "s" "") 100 true).registered
      = false ∧
    (sseHandler_shared none (Env.mk "redis://localhost:6379/0" "s" "") 100 true).queueAllocated
      = false :=
  C1_reject_allocates_nothing none (Env.mk "redis://localhost:6379/0" "s" "") 100 true
    "token parse error: token is malformed" rfl

/-! ## Claim C2: startup configuration -/

/-- C2 counterexample: with the Redis URL present but `GO_SSE_SIDECAR_TOKEN`
absent (empty), startup is not fatal — the process serves on the default
port, contradicting the claim that a missing secret is fatal at startup. -/
theorem C2_counterexample_missing_secret_serves :
    mainStartup (Env.mk "redis://localhost:6379/0" "" "") true true =
      StartupResult.serving "5687" := by
  decide

/-- C2 amended: absence of the bus connection URL is fatal at startup (as is
a URL parse failure or ping failure), but the token signing secret is never
checked at startup: with the URL present and the bus reachable the process
serves regardless of the secret, and the handler later reads the secret
per-request, getting the empty string when it is unset. -/
theorem C2_startup_fatal_only_for_redis (e : Env) (parseOk pingOk : Bool) :
    (e.redisURL = "" →
      mainStartup e parseOk pingOk =
        StartupResult.fatal "GO_SSE_SIDECAR_REDIS_URL not set") ∧
    (e.redisURL ≠ "" → parseOk = true → pingOk = true →
      mainStartup e parseOk pingOk =
        StartupResult.serving (if e.port = "" then "5687" else e.port)) := by
  constructor
  · intro h
    unfold mainStartup getRedisClient
    simp [h]
  · intro h hp hg
    unfold mainStartup getRedisClient
    simp [h, hp, hg]

/-- Witness for C2 (amended): fatal at a concrete empty URL, serving at a
concrete environment with the secret absent. -/
theorem C2_startup_fatal_only_for_redis_witness :
    mainStartup (Env.mk "" "s" "") true true =
      StartupResult.fatal "GO_SSE_SIDECAR_REDIS_URL not set" ∧
    mainStartup (Env.mk "redis://localhost:6379/0" "" "8080") true true =
      StartupResult.serving "8080" := by
  constructor
  · exact (C2_startup_fatal_only_for_redis (Env.mk "" "s" "") true true).1 rfl
  · exact ((C2_startup_fatal_only_for_redis
      (Env.mk "redis://localhost:6379/0" "" "8080") true true).2
        (by decide) rfl rfl).trans (by decide)

/-! ## The bounded outbound queue (`make(chan string, 10)`)

Both variants allocate `chan string` of capacity 10 per connection and the
producers only ever send with `select { case ch <- msg: default: ... }`.
A buffered Go channel is a bounded FIFO; it is modelled as a list (front =
next message the dispatcher receives). -/

def queueCapacity : Nat := 10

/-- Non-blocking send on the capacity-10 channel: the `select`/`default`
idiom.  Returns the new buffer and whether the send succeeded; on a full
buffer the message is dropped and the buffer is unchanged. -/
def tryEnqueue (q : List String) (msg : String) : List String × Bool :=
  if q.length < queueCapacity then (q ++ [msg], true) else (q, false)

/-! ## Dispatcher/bridge trace model (per-connection variant)

`subscribeToUserChannel` (the producer) and the `sseHandler` write loop (the
consumer) interact only through the connection's channel.  A connection's
history is a trace of events: a bus message arriving at the producer, or the
dispatcher draining one message and writing its frame. -/

/-- The event frame written per message: `fmt.Fprintf(w, "data: %s\n\n", msg)`. -/
def formatFrame (msg : String) : String := "data: " ++ msg ++ "\n\n"

structure ConnState where
  queue : List String
  sent : List String
  wire : String
  dropped : Bool
deriving DecidableEq, Repr

inductive BridgeEv
  | arrive (msg : String)
  | dispatch
deriving DecidableEq, Repr

/-- One connection step: `arrive m` is the producer receiving `m` from the
bus and doing the non-blocking send (dropping on full); `dispatch` is the
handler loop receiving one queued message and writing its frame. -/
def stepEv (s : ConnState) : BridgeEv → ConnState
  | BridgeEv.arrive m =>
    ConnState.mk (tryEnqueue s.queue m).1 s.sent s.wire
      (s.dropped || !(tryEnqueue s.queue m).2)
  | BridgeEv.dispatch =>
    match s.queue with
    | [] => s
    | m :: rest =>
      ConnState.mk rest (s.sent ++ [m]) (s.wire ++ formatFrame m) s.dropped

def initConn : ConnState := ConnState.mk [] [] "" false

def runConn (evs : List BridgeEv) : ConnState := evs.foldl stepEv initConn

/-- The messages the bridge received from the bus along a trace, in order. -/
def arrivals (evs : List BridgeEv) : List String :=
  evs.filterMap (fun e =>
    match e with
    | BridgeEv.arrive m => some m
    | BridgeEv.dispatch => none)

/-- The bytes the dispatcher has written for a list of sent messages. -/
def wireOf (msgs : List String) : String :=
  msgs.foldl (fun acc m => acc ++ formatFrame m) ""

/-! ## Shared topology: the `clientManager` coordinator

The `clients` map is modelled as the list of registered client ids (the
`registry`); each id's `chan string` lives in the `channels` association
list, with a `closed` flag because Go's `close` panics on an already-closed
channel — panics are modelled as `Except.error`. -/

structure ChanState where
  buf : List String
  closed : Bool
deriving DecidableEq, Repr

structure SharedState where
  registry : List Nat
  channels : List (Nat × ChanState)
deriving DecidableEq, Repr

def getChan (chs : List (Nat × ChanState)) (id : Nat) : Option ChanState :=
  match chs with
  | [] => none
  | (k, c) :: rest => if k = id then some c else getChan rest id

def setChan (chs : List (Nat × ChanState)) (id : Nat) (c : ChanState) :
    List (Nat × ChanState) :=
  match chs with
  | [] => []
  | (k, c0) :: rest =>
    if k = id then (k, c) :: rest else (k, c0) :: setChan rest id c

/-- Go's `close(ch)`: panics (`Except.error`) when `ch` is already closed. -/
def closeChan (chs : List (Nat × ChanState)) (id : Nat) :
    Except String (List (Nat × ChanState)) :=
  match getChan chs id with
  | none => Except.error "close of nil channel"
  | some c =>
    if c.closed then Except.error "close of closed channel"
    else Except.ok (setChan chs id (ChanState.mk c.buf true))

/-- The commands arriving on the coordinator's `addClient`, `removeClient`
and `broadcast` channels. -/
inductive Cmd
  | addClient (id : Nat)
  | removeClient (id : Nat)
  | broadcast (msg : String)
deriving DecidableEq, Repr

/-- Body of the broadcast loop for one registered client:
`select { case client.channel <- msg: default: delete(clients, client);
close(client.channel) }`.  A send on a closed channel would panic. -/
def broadcastSend (st : SharedState) (id : Nat) (msg : String) :
    Except String SharedState :=
  match getChan st.channels id with
  | none => Except.error "send on nil channel"
  | some c =>
    if c.closed then Except.error "send on closed channel"
    else if c.buf.length < queueCapacity then
      Except.ok (SharedState.mk st.registry
        (setChan st.channels id (ChanState.mk (c.buf ++ [msg]) false)))
    else
      Except.ok (SharedState.mk (st.registry.erase id)
        (setChan st.channels id (ChanState.mk c.buf true)))

/-- One iteration of `clientManager`'s `select`.  `addClient` also records
the channel the handler just allocated (`make(chan string, 10)`, empty and
open).  `removeClient` is `delete(clients, client); close(client.channel)` —
the close is unconditional, panicking if the channel was already closed. -/
def clientManagerStep (st : SharedState) : Cmd → Except String SharedState
  | Cmd.addClient id =>
    Except.ok (SharedState.mk (st.registry ++ [id])
      (st.channels ++ [(id, ChanState.mk [] false)]))
  | Cmd.removeClient id =>
    match closeChan st.channels id with
    | Except.error e => Except.error e
    | Except.ok chs => Except.ok (SharedState.mk (st.registry.erase id) chs)
  | Cmd.broadcast msg =>
    List.foldlM (fun s id => broadcastSend s id msg) st st.registry

/-- `clientManager` processing a sequence of commands; an `Except.error`
is a Go runtime panic, which kills the whole process. -/
def runCmds (st : SharedState) (cmds : List Cmd) : Except String SharedState :=
  cmds.foldlM clientManagerStep st

/-! ## Claims C5, C6, C7: backpressure and the coordinator -/

lemma stepEv_queue_bound (evs : List BridgeEv) : ∀ s : ConnState,
    s.queue.length ≤ queueCapacity →
    (List.foldl stepEv s evs).queue.length ≤ queueCapacity := by
  induction evs with
  | nil => intro s h; simpa using h
  | cons e rest ih =>
    intro s h
    rw [List.foldl_cons]
    apply ih
    cases e with
    | arrive m =>
      by_cases hlt : s.queue.length < queueCapacity
      · simp only [stepEv, tryEnqueue, hlt, if_true]
        simp only [List.length_append, List.length_cons, List.length_nil]
        omega
      · simp only [stepEv, tryEnqueue, hlt, if_false]
        exact h
    | dispatch =>
      cases hq : s.queue with
      | nil =>
        simp only [stepEv, hq]
        exact Nat.zero_le _
      | cons m rest' =>
        rw [hq] at h
        simp only [stepEv, hq]
        simp only [List.length_cons] at h
        omega

/-- C5: per connection the outbound queue never holds more than 10 messages
along any trace; the producer-side send never blocks — on a full queue
`tryEnqueue` returns immediately, dropping the message (per-connection
topology), and the shared-topology broadcast loop answers a full queue by
evicting the connection (deregistered, channel closed) and returning control
to the coordinator. -/
theorem C5_bounded_queue_nonblocking :
    (∀ evs : List BridgeEv, (runConn evs).queue.length ≤ queueCapacity) ∧
    (∀ (q : List String) (m : String), ¬ q.length < queueCapacity →
      tryEnqueue q m = (q, false)) ∧
    (∀ (id : Nat) (qful : List String) (m : String),
      ¬ qful.length < queueCapacity →
      clientManagerStep (SharedState.mk [id] [(id, ChanState.mk qful false)])
          (Cmd.broadcast m) =
        Except.ok (SharedState.mk [] [(id, ChanState.mk qful true)])) := by
  refine ⟨fun evs => stepEv_queue_bound evs initConn (by simp [initConn]), ?_, ?_⟩
  · intro q m h
    simp [tryEnqueue, h]
  · intro id qful m h
    simp [clientManagerStep, broadcastSend, getChan, setChan, List.foldlM, h,
      List.erase_cons, Bind.bind, Except.bind, Pure.pure, Except.pure]

/-- Witness for C5 at a concrete trace, a concrete full queue, and a
concrete one-client shared state with a full queue. -/
theorem C5_bounded_queue_nonblocking_witness :
    (runConn [BridgeEv.arrive "a"]).queue.length ≤ queueCapacity ∧
    tryEnqueue (List.replicate 10 "x") "y" = (List.replicate 10 "x", false) ∧
    clientManagerStep
        (SharedState.mk [1] [(1, ChanState.mk (List.replicate 10 "x") false)])
        (Cmd.broadcast "m") =
      Except.ok (SharedState.mk [] [(1, ChanState.mk (List.replicate 10 "x") true)]) :=
  ⟨C5_bounded_queue_nonblocking.1 [BridgeEv.arrive "a"],
   C5_bounded_queue_nonblocking.2.1 (List.replicate 10 "x") "y" (by decide),
   C5_bounded_queue_nonblocking.2.2 1 (List.replicate 10 "x") "m" (by decide)⟩

/-- C6: in the shared topology, with connections `a` and `b` registered,
`a`'s queue full and `b`'s not, one broadcast command evicts `a` (removed
from the registry, channel closed) while `b`'s queue receives the message. -/
theorem C6_broadcast_evicts_full_delivers_rest (a b : Nat)
    (qa qb : List String) (m : String) (hab : a ≠ b)
    (hqa : ¬ qa.length < queueCapacity) (hqb : qb.length < queueCapacity) :
    clientManagerStep
      (SharedState.mk [a, b]
        [(a, ChanState.mk qa false), (b, ChanState.mk qb false)])
      (Cmd.broadcast m) =
    Except.ok (SharedState.mk [b]
      [(a, ChanState.mk qa true), (b, ChanState.mk (qb ++ [m]) false)]) ∧
    a ∉ ([b] : List Nat) := by
  constructor
  · simp [clientManagerStep, broadcastSend, getChan, setChan, List.foldlM, hqa,
      hqb, hab, Ne.symm hab, List.erase_cons, Bind.bind, Except.bind, Pure.pure,
      Except.pure]
  · simp [hab]

/-- Witness for C6 at a concrete two-client state. -/
theorem C6_broadcast_evicts_full_delivers_rest_witness :
    clientManagerStep
      (SharedState.mk [1, 2]
        [(1, ChanState.mk (List.replicate 10 "x") false),
         (2, ChanState.mk [] false)])
      (Cmd.broadcast "m") =
    Except.ok (SharedState.mk [2]
      [(1, ChanState.mk (List.replicate 10 "x") true),
       (2, ChanState.mk ([] ++ ["m"]) false)]) ∧
    1 ∉ ([2] : List Nat) :=
  C6_broadcast_evicts_full_delivers_rest 1 2 (List.replicate 10 "x") [] "m"
    (by decide) (by decide) (by decide)

/-- C7: the interleaving the claim asserts to be safe actually panics.
One registered connection with a full queue: a broadcast evicts it (closing
its channel); the connection's own deregistration on handler exit then sends
`removeClient`, whose unconditional `close` hits the already-closed channel
— `close of closed channel` is a Go runtime panic that kills the whole
process. -/
theorem C7_eviction_then_remove_double_close :
    runCmds
      (SharedState.mk [1] [(1, ChanState.mk (List.replicate 10 "x") false)])
      [Cmd.broadcast "m", Cmd.removeClient 1] =
      Except.error "close of closed channel" := by rfl


/-! ## Claims C8 and C9: ordering and framing -/

lemma arrivals_arrive (m : String) (rest : List BridgeEv) :
    arrivals (BridgeEv.arrive m :: rest) = m :: arrivals rest := rfl

lemma arrivals_dispatch (rest : List BridgeEv) :
    arrivals (BridgeEv.dispatch :: rest) = arrivals rest := rfl

lemma stepEv_dropped_mono (evs : List BridgeEv) : ∀ s : ConnState,
    s.dropped = true → (List.foldl stepEv s evs).dropped = true := by
  induction evs with
  | nil => intro s h; simpa using h
  | cons e rest ih =>
    intro s h
    rw [List.foldl_cons]
    apply ih
    cases e with
    | arrive m => simp [stepEv, h]
    | dispatch =>
      cases hq : s.queue with
      | nil => simp only [stepEv, hq]; exact h
      | cons m rest' => simp only [stepEv, hq]; exact h

lemma runConn_invariant (evs : List BridgeEv) : ∀ s : ConnState,
    List.Sublist ((List.foldl stepEv s evs).sent ++ (List.foldl stepEv s evs).queue)
      (s.sent ++ s.queue ++ arrivals evs) ∧
    ((List.foldl stepEv s evs).dropped = false →
      (List.foldl stepEv s evs).sent ++ (List.foldl stepEv s evs).queue =
        s.sent ++ s.queue ++ arrivals evs) := by
  induction evs with
  | nil =>
    intro s
    constructor
    · simp [arrivals]
    · intro _; simp [arrivals]
  | cons e rest ih =>
    intro s
    rw [List.foldl_cons]
    cases e with
    | arrive m =>
      by_cases hlt : s.queue.length < queueCapacity
      · have hstep : stepEv s (BridgeEv.arrive m) =
            ConnState.mk (s.queue ++ [m]) s.sent s.wire s.dropped := by
          simp [stepEv, tryEnqueue, hlt]
        rw [hstep]
        have h := ih (ConnState.mk (s.queue ++ [m]) s.sent s.wire s.dropped)
        have heq : s.sent ++ (s.queue ++ [m]) ++ arrivals rest =
            s.sent ++ s.queue ++ arrivals (BridgeEv.arrive m :: rest) := by
          rw [arrivals_arrive]
          simp [List.append_assoc]
        exact ⟨heq ▸ h.1, fun hd => heq ▸ h.2 hd⟩
      · have hstep : stepEv s (BridgeEv.arrive m) =
            ConnState.mk s.queue s.sent s.wire true := by
          simp [stepEv, tryEnqueue, hlt]
        rw [hstep]
        have h := ih (ConnState.mk s.queue s.sent s.wire true)
        constructor
        · refine h.1.trans ?_
          rw [arrivals_arrive]
          exact List.Sublist.append_left
            (List.sublist_cons_self m (arrivals rest)) (s.sent ++ s.queue)
        · intro hd
          have hmono := stepEv_dropped_mono rest
            (ConnState.mk s.queue s.sent s.wire true) rfl
          rw [hd] at hmono
          exact absurd hmono (by simp)
    | dispatch =>
      cases hq : s.queue with
      | nil =>
        have hstep : stepEv s BridgeEv.dispatch = s := by simp [stepEv, hq]
        rw [hstep, arrivals_dispatch]
        have h := ih s
        rw [hq] at h
        simpa using h
      | cons m rest' =>
        have hstep : stepEv s BridgeEv.dispatch =
            ConnState.mk rest' (s.sent ++ [m]) (s.wire ++ formatFrame m) s.dropped := by
          simp [stepEv, hq]
        rw [hstep, arrivals_dispatch]
        have h := ih (ConnState.mk rest' (s.sent ++ [m]) (s.wire ++ formatFrame m) s.dropped)
        have heq : s.sent ++ [m] ++ rest' ++ arrivals rest =
            s.sent ++ m :: rest' ++ arrivals rest := by
          simp [List.append_assoc]
        exact ⟨heq ▸ h.1, fun hd => heq ▸ h.2 hd⟩

lemma wireOf_append_single (l : List String) (m : String) :
    wireOf (l ++ [m]) = wireOf l ++ formatFrame m := by
  unfold wireOf
  rw [List.foldl_append]
  rfl

lemma stepEv_wire_invariant (evs : List BridgeEv) : ∀ s : ConnState,
    s.wire = wireOf s.sent →
    (List.foldl stepEv s evs).wire = wireOf (List.foldl stepEv s evs).sent := by
  induction evs with
  | nil => intro s h; simpa using h
  | cons e rest ih =>
    intro s h
    rw [List.foldl_cons]
    apply ih
    cases e with
    | arrive m => simpa [stepEv] using h
    | dispatch =>
      cases hq : s.queue with
      | nil => simp only [stepEv, hq]; exact h
      | cons m rest' =>
        simp only [stepEv, hq]
        rw [wireOf_append_single, h]

/-- C8: along any interleaving of bus arrivals and dispatches, the sequence
of messages written to the client is an order-preserving subsequence of the
sequence the bridge received from the bus; when nothing was dropped,
sent-plus-pending equals the arrival sequence exactly, and once the queue is
drained the client has observed exactly the arrival sequence in order (the
queue is FIFO: insertion order equals delivery order). -/
theorem C8_fifo_order (evs : List BridgeEv) :
    List.Sublist (runConn evs).sent (arrivals evs) ∧
    ((runConn evs).dropped = false →
      (runConn evs).sent ++ (runConn evs).queue = arrivals evs) ∧
    ((runConn evs).dropped = false → (runConn evs).queue = [] →
      (runConn evs).sent = arrivals evs) := by
  have h : List.Sublist ((runConn evs).sent ++ (runConn evs).queue) (arrivals evs) ∧
      ((runConn evs).dropped = false →
        (runConn evs).sent ++ (runConn evs).queue = arrivals evs) := by
    simpa [initConn, runConn] using runConn_invariant evs initConn
  refine ⟨?_, fun hd => h.2 hd, fun hd hq => ?_⟩
  · exact (List.sublist_append_left (runConn evs).sent (runConn evs).queue).trans h.1
  · have h2 := h.2 hd
    rw [hq] at h2
    simpa using h2

/-- Witness for C8 at a concrete two-message trace with no drops. -/
theorem C8_fifo_order_witness :
    List.Sublist
      (runConn [BridgeEv.arrive "a", BridgeEv.arrive "b",
        BridgeEv.dispatch, BridgeEv.dispatch]).sent
      (arrivals [BridgeEv.arrive "a", BridgeEv.arrive "b",
        BridgeEv.dispatch, BridgeEv.dispatch]) ∧
    (runConn [BridgeEv.arrive "a", BridgeEv.arrive "b",
        BridgeEv.dispatch, BridgeEv.dispatch]).sent =
      arrivals [BridgeEv.arrive "a", BridgeEv.arrive "b",
        BridgeEv.dispatch, BridgeEv.dispatch] :=
  ⟨(C8_fifo_order [BridgeEv.arrive "a", BridgeEv.arrive "b",
      BridgeEv.dispatch, BridgeEv.dispatch]).1,
   (C8_fifo_order [BridgeEv.arrive "a", BridgeEv.arrive "b",
      BridgeEv.dispatch, BridgeEv.dispatch]).2.2 (by decide) (by decide)⟩

/-- C9: the bytes the dispatcher writes are exactly one frame per dispatched
message, in order; each frame is the string `data: ` followed by the payload
unchanged followed by two newlines, and the framing is injective — the
payload is never parsed, transformed, or split across frames. -/
theorem C9_frame_per_message (evs : List BridgeEv) :
    (runConn evs).wire = wireOf (runConn evs).sent ∧
    (∀ m, formatFrame m = "data: " ++ m ++ "\n\n") ∧
    Function.Injective formatFrame := by
  refine ⟨stepEv_wire_invariant evs initConn (by simp [initConn, wireOf]),
    fun m => rfl, ?_⟩
  intro x y hxy
  have hd : (formatFrame x).data = (formatFrame y).data := congrArg String.data hxy
  simp only [formatFrame, String.data_append] at hd
  apply String.ext
  exact List.append_cancel_left (List.append_cancel_right hd)

/-- Witness for C9 at a concrete one-message trace. -/
theorem C9_frame_per_message_witness :
    (runConn [BridgeEv.arrive "ping", BridgeEv.dispatch]).wire =
      wireOf (runConn [BridgeEv.arrive "ping", BridgeEv.dispatch]).sent ∧
    formatFrame "ping" = "data: ping\n\n" :=
  ⟨(C9_frame_per_message [BridgeEv.arrive "ping", BridgeEv.dispatch]).1,
   ((C9_frame_per_message [BridgeEv.arrive "ping", BridgeEv.dispatch]).2.1 "ping").trans
     (by decide)⟩


/-! ## Claim C10: per-user channel naming is injective

The decoder below (`digitVal`, `decDecode`, `intDecode`) is proof machinery:
a left inverse of the `%d` rendering, establishing injectivity. -/

/-- Numeric value of a decimal digit character. -/
def digitVal (c : Char) : Nat := c.toNat - 48

lemma digitVal_digitChar (d : Nat) (h : d < 10) : digitVal (digitChar d) = d := by
  interval_cases d <;> decide

lemma digitChar_ne_dash (d : Nat) (h : d < 10) : digitChar d ≠ '-' := by
  interval_cases d <;> decide

/-- Decode a most-significant-first list of digit characters. -/
def decDecode (l : List Char) : Nat := Nat.ofDigits 10 ((l.map digitVal).reverse)

lemma decDecode_decRender (n : Nat) : decDecode (decRender n).data = n := by
  unfold decRender
  by_cases h0 : n = 0
  · subst h0
    decide
  · simp only [h0, if_false]
    unfold decDecode
    have hmap : (((Nat.digits 10 n).reverse.map digitChar).map digitVal) =
        (Nat.digits 10 n).reverse := by
      rw [List.map_map]
      have := List.map_congr_left (l := (Nat.digits 10 n).reverse)
        (f := digitVal ∘ digitChar) (g := id) ?_
      · simpa using this
      · intro d hd
        exact digitVal_digitChar d
          (Nat.digits_lt_base (by norm_num) (List.mem_reverse.mp hd))
    show Nat.ofDigits 10 ((((Nat.digits 10 n).reverse.map digitChar).map digitVal).reverse) = n
    rw [hmap, List.reverse_reverse, Nat.ofDigits_digits]

lemma decRender_data_ne_dash (n : Nat) : ∀ c ∈ (decRender n).data, c ≠ '-' := by
  unfold decRender
  by_cases h0 : n = 0
  · subst h0
    intro c hc
    rw [if_pos rfl] at hc
    have h0d : (("0" : String)).data = ['0'] := by decide
    rw [h0d] at hc
    have hc0 : c = '0' := by simpa using hc
    subst hc0
    decide
  · simp only [h0, if_false]
    intro c hc
    rcases List.mem_map.mp hc with ⟨d, hd, rfl⟩
    exact digitChar_ne_dash d
      (Nat.digits_lt_base (by norm_num) (List.mem_reverse.mp hd))

/-- Decode a `%d`-rendered integer: optional minus sign then digits. -/
def intDecode (s : String) : Int :=
  if s.data.head? = some '-' then -(decDecode s.data.tail : Int)
  else (decDecode s.data : Int)

lemma intDecode_intRender (i : Int) : intDecode (intRender i) = i := by
  unfold intRender
  by_cases hneg : i < 0
  · simp only [hneg, if_true]
    unfold intDecode
    have hdata : ("-" ++ decRender i.natAbs).data = '-' :: (decRender i.natAbs).data := by
      rw [String.data_append]
      rfl
    rw [hdata]
    rw [if_pos (by simp)]
    simp only [List.tail_cons]
    rw [decDecode_decRender]
    omega
  · simp only [hneg, if_false]
    unfold intDecode
    have hhead : ¬ (decRender i.toNat).data.head? = some '-' := by
      cases hd : (decRender i.toNat).data with
      | nil => simp
      | cons c cs =>
        simp only [List.head?_cons]
        intro h'
        have hc : c = '-' := by injection h'
        exact decRender_data_ne_dash i.toNat c
          (by rw [hd]; exact List.mem_cons_self c cs) hc
    rw [if_neg hhead, decDecode_decRender]
    omega

lemma intRender_injective : Function.Injective intRender :=
  Function.LeftInverse.injective intDecode_intRender

/-- C10: the bus channel an authenticated connection subscribes to is exactly
`events:user:` followed by the decimal rendering of the verified `user_id`;
this mapping is injective over user ids, the per-connection handler
subscribes precisely to the verified identity's channel, and a message
published on one identity's channel is only ever received by a subscriber of
that same identity. -/
theorem C10_user_channel_isolation :
    (∀ u : Int, channelName u = "events:user:" ++ intRender u) ∧
    Function.Injective channelName ∧
    (∀ (tok : Option JWTToken) (e : Env) (now : Int) (claims : SSETokenClaims),
      verifySseToken tok e.tokenSecret now = Except.ok claims →
      (sseHandler_main tok e now true).busChannel = some (channelName claims.userID)) ∧
    (∀ u v : Int, receives u (channelName v) = true → u = v) := by
  have hinj : Function.Injective channelName := by
    intro a b hab
    have h := congrArg String.data hab
    simp only [channelName, String.data_append] at h
    exact intRender_injective (String.ext (List.append_cancel_left h))
  refine ⟨fun u => rfl, hinj, ?_, ?_⟩
  · intro tok e now claims hok
    simp [sseHandler_main, hok]
  · intro u v h
    have hb : channelName v = channelName u := by
      have := h
      simp only [receives] at this
      exact eq_of_beq this
    exact (hinj hb).symm

/-- Witness for C10 at user id 42: the channel string shape, the handler's
subscription for a concrete valid token, and delivery implying identity
equality. -/
theorem C10_user_channel_isolation_witness :
    channelName 42 = "events:user:" ++ intRender 42 ∧
    (sseHandler_main (some (JWTToken.mk Alg.HS256 42 (some 200) "s"))
        (Env.mk "redis://localhost:6379/0" "s" "") 100 true).busChannel =
      some (channelName 42) ∧
    (42 : Int) = 42 :=
  ⟨C10_user_channel_isolation.1 42,
   C10_user_channel_isolation.2.2.1 (some (JWTToken.mk Alg.HS256 42 (some 200) "s"))
     (Env.mk "redis://localhost:6379/0" "s" "") 100 (SSETokenClaims.mk 42 (some 200)) rfl,
   C10_user_channel_isolation.2.2.2 42 42 (by simp [receives])⟩

end SSE
